import Mathlib

/-!
Verification of the bepress CSV handler (`csv_handler.py`).

The module converts rows of a bepress CSV export into per-article XML
metadata files.  We give a shallow embedding of the four functions
`parse_authors`, `get_fulltext_url`, `parse_article_metadata` / `parse_row`
and `csv_to_xml`, and prove the documented properties about them.

Modelling conventions:
* A CSV row (a Python dict of string keys to string values) is an
  association list `Row`; `rowGet` is `row.get(k)` (`none` when the key is
  absent).  Python truthiness of an optional string (`None` and `""` are
  falsy) is `truthy`.
* A Python `KeyError` (`row[k]` on a missing key) is modelled by returning
  `none` from the enclosing function.
* The external collaborators (`requests.get`, BeautifulSoup, the django
  template renderer, the filesystem) are out of scope per the design: they
  are modelled as parameters.  `ScrapeEnv.fetch` yields either a transport
  error (`requests.exceptions.RequestException`) or a response with `ok`
  and `text`; `ScrapeEnv.findAnchorPdf` abstracts
  `BeautifulSoup(text).find("a", id="pdf").attrs["href"]`, returning the
  href of the pdf anchor or `none` when there is no such anchor.
* Side effects are made observable: `get_fulltext_urlT` additionally
  returns the list of URLs fetched from the network, and `csv_to_xml`
  returns the list of filesystem/stdout effects instead of performing them.
-/

/-- A CSV row: mapping from field name to string value. -/
def Row : Type := List (String × String)

/-- Python `row.get(k)`: `none` when the key is absent. -/
def rowGet (row : Row) (k : String) : Option String :=
  List.lookup k row

/-- Python truthiness of `row.get(k)`: `None` and the empty string are falsy. -/
def truthy : Option String → Bool
  | none => false
  | some s => s != ""

/-- Python `row.get(k)` filtered through truthiness: the value when it is
present and non-empty, otherwise `none`. -/
def getTruthy (row : Row) (k : String) : Option String :=
  match rowGet row k with
  | none => none
  | some s => if s = "" then none else some s

/-- `AUTHOR_FIELDS_MAP`: source column template (with `%d` for the author
index) paired with the destination attribute name. -/
def AUTHOR_FIELDS_MAP : List (String × String) :=
  [ ("author%d_fname", "first_name")
  , ("author%d_mname", "middle_name")
  , ("author%d_lname", "last_name")
  , ("author%d_suffix", "salutation")
  , ("author%d_email", "email")
  , ("author%d_institution", "institution")
  , ("author%d_is_corporate", "is_corporate") ]

/-- Substitute the decimal rendering of `i` for the first `%d` in a
character list (the `%` formatting used on the column templates). -/
def fmtChars (i : Nat) : List Char → List Char
  | [] => []
  | '%' :: 'd' :: cs => (toString i).data ++ cs
  | c :: cs => c :: fmtChars i cs

/-- Python `template % i`: substitute the author index into the column
template. -/
def fmtIndex (template : String) (i : Nat) : String :=
  String.mk (fmtChars i template.data)

/-- One author record: the dict built for one index by the inner loop of
`parse_authors`.  A destination attribute is present exactly when the
corresponding source column is present and non-empty in the row. -/
def parse_author_at (row : Row) (i : Nat) : List (String × String) :=
  AUTHOR_FIELDS_MAP.filterMap
    (fun sd => (getTruthy row (fmtIndex sd.1 i)).map (fun v => (sd.2, v)))

/-- The index loop of `parse_authors`: append non-blank author records,
stop at the first blank one. -/
def parse_authorsFrom (row : Row) : List Nat → List (List (String × String))
  | [] => []
  | i :: rest =>
    let author := parse_author_at row i
    if author = [] then [] else author :: parse_authorsFrom row rest

/-- `parse_authors(row)`: probe author indices 1 to 5 (Python
`range(1, 6)`). -/
def parse_authors (row : Row) : List (List (String × String)) :=
  parse_authorsFrom row (List.range' 1 5)

/-- A response from `requests.get`: the `ok` flag and the body `text`. -/
structure FetchResponse where
  ok : Bool
  text : String
deriving DecidableEq

/-- The outcome of `requests.get(url)`: either a response, or a raised
`requests.exceptions.RequestException` (any transport-level error). -/
inductive FetchResult where
  | transportError
  | success (resp : FetchResponse)
deriving DecidableEq

/-- The external collaborators used by `get_fulltext_url`: the HTTP client
and the HTML search for the href of the anchor with id `pdf`
(`BeautifulSoup(text).find("a", id="pdf")`, reading its `href`). -/
structure ScrapeEnv where
  fetch : String → FetchResult
  findAnchorPdf : String → Option String

/-- The stamping suffix of `get_fulltext_url`: Python appends
`&unstamped=1` when `"?" in url` (for a one-character pattern, substring
containment is character containment), else `?unstamped=1`. -/
def stampUrl (url : String) : String :=
  if url.data.contains '?' then url ++ "&unstamped=1" else url ++ "?unstamped=1"

/-- `get_fulltext_url(row, unstamped, scrape)` with the network side
effect made observable: the second component lists the URLs passed to
`requests.get` (empty = no network call).  Mirrors the source: start from
`row.get("fulltext_url")`; when that is falsy and `scrape` and
`row.get("calc_url")` is truthy, fetch the calculated URL, keeping the
original value on a transport error, a non-`ok` response or a missing pdf
anchor, and taking the anchor href on success; finally, when the value is
truthy and `unstamped`, append the stamping suffix. -/
def get_fulltext_urlT (env : ScrapeEnv) (row : Row) (unstamped scrape : Bool) :
    Option String × List String :=
  let url0 := rowGet row "fulltext_url"
  let scraped : Option String × List String :=
    if !truthy url0 && scrape && truthy (rowGet row "calc_url") then
      let calcUrl := (rowGet row "calc_url").getD ""
      match env.fetch calcUrl with
      | .transportError => (url0, [calcUrl])
      | .success resp =>
        if resp.ok then
          match env.findAnchorPdf resp.text with
          | some href => (some href, [calcUrl])
          | none => (url0, [calcUrl])
        else (url0, [calcUrl])
    else (url0, [])
  let url1 := scraped.1
  ((if truthy url1 && unstamped then url1.map stampUrl else url1), scraped.2)

/-- `get_fulltext_url(row, unstamped, scrape)`: the returned URL (Python
defaults are `unstamped=True`, `scrape=True`; callers here pass them
explicitly). -/
def get_fulltext_url (env : ScrapeEnv) (row : Row) (unstamped scrape : Bool) :
    Option String :=
  (get_fulltext_urlT env row unstamped scrape).1

/-- A value of the parsed article dict: original row fields stay strings,
the derived fields add a string list (`keywords`), an optional string
(`fulltext_url`), a boolean (`peer_reviewed` default) and the author
list. -/
inductive Value where
  | str : String → Value
  | strList : List String → Value
  | optStr : Option String → Value
  | bool : Bool → Value
  | authors : List (List (String × String)) → Value
deriving DecidableEq

/-- The parsed article metadata dict, as a lookup function. -/
def ParsedDict : Type := String → Option Value

/-- `parse_article_metadata(row)`: `dict(row, keywords=..., fulltext_url=...,
article_id=..., language=..., peer_reviewed=...)`.  The keyword arguments
shadow row fields of the same name; every other row field is looked up
unchanged.  `row["disciplines"]` and `row["context_key"]` raise `KeyError`
when absent, modelled as `none`. -/
def parse_article_metadata (env : ScrapeEnv) (row : Row) : Option ParsedDict :=
  match rowGet row "disciplines", rowGet row "context_key" with
  | some disciplines, some contextKey =>
    some (fun k =>
      if k = "keywords" then some (.strList (disciplines.splitOn ";"))
      else if k = "fulltext_url" then
        some (.optStr (get_fulltext_url env row true true))
      else if k = "article_id" then some (.str contextKey)
      else if k = "language" then
        some (.str ((rowGet row "language").getD "en"))
      else if k = "peer_reviewed" then
        some (match rowGet row "peer_reviewed" with
              | some s => .str s
              | none => .bool false)
      else (rowGet row k).map .str)
  | _, _ => none

/-- `parse_row(row)`: the article metadata dict with
`article_dict["authors"]` set to `parse_authors(row)`. -/
def parse_row (env : ScrapeEnv) (row : Row) : Option ParsedDict :=
  (parse_article_metadata env row).map
    (fun d k => if k = "authors" then some (.authors (parse_authors row)) else d k)

/-- Configuration of the batch converter: `BEPRESS_PATH` and the external
django renderer `render_to_string(template, {"article": parsed})`,
abstracted as a function of the template name and the parsed dict. -/
structure RenderCfg where
  bepressPath : String
  render : String → ParsedDict → String

/-- `render_xml(parsed)`: render the fixed metadata template over the
parsed article. -/
def render_xml (cfg : RenderCfg) (parsed : ParsedDict) : String :=
  cfg.render "bepress/xml/metadata.xml" parsed

/-- An observable effect of `csv_to_xml`: either create the parent
directories of `path` as needed and write `content` there (overwriting
any existing file), or print `content` to standard output. -/
inductive FsEffect where
  | mkdirWrite (path : List String) (content : String)
  | stdout (content : String)
deriving DecidableEq

/-- A model filesystem: file path (as a component list) to contents. -/
def Fs : Type := List String → Option String

/-- Apply one effect to the filesystem: a write stores the content at the
path unconditionally (overwrite); printing leaves the filesystem alone. -/
def applyEffect (fs : Fs) : FsEffect → Fs
  | .mkdirWrite p c => fun q => if q = p then some c else fs q
  | .stdout _ => fs

/-- Apply a trace of effects from left to right. -/
def applyEffects (fs : Fs) (effs : List FsEffect) : Fs :=
  effs.foldl applyEffect fs

/-- `csv_to_xml(reader, commit)`, with the per-row filesystem/stdout
effects returned as a trace.  Per row: parse, render, compute the output
identity `row.get("article_id") or row["context_key"]`, build the path
`BEPRESS_PATH/row["issue"]/id/metadata.xml`, then either write (commit)
or print.  A `KeyError` (from parsing or from `row["issue"]` /
`row["context_key"]`) aborts the batch, modelled as `none`. -/
def csv_to_xml (cfg : RenderCfg) (env : ScrapeEnv) (reader : List Row)
    (commit : Bool) : Option (List FsEffect) :=
  match reader with
  | [] => some []
  | row :: rest =>
    match parse_row env row with
    | none => none
    | some parsed =>
      let xml := render_xml cfg parsed
      let idOpt : Option String :=
        match getTruthy row "article_id" with
        | some a => some a
        | none => rowGet row "context_key"
      match idOpt, rowGet row "issue" with
      | some id, some issue =>
        let filePath := [cfg.bepressPath, issue, id, "metadata.xml"]
        let eff := if commit then FsEffect.mkdirWrite filePath xml
                   else FsEffect.stdout xml
        (csv_to_xml cfg env rest commit).map (eff :: ·)
      | _, _ => none

/-- A scrape environment for concrete evaluations: every fetch fails with
a transport error and no page has a pdf anchor. -/
def envTriv : ScrapeEnv :=
  ⟨fun _ => .transportError, fun _ => none⟩

/-- A scrape environment whose fetches succeed and whose pages carry a pdf
anchor with a non-empty href. -/
def envPdf : ScrapeEnv :=
  ⟨fun _ => .success ⟨true, "PAGE"⟩, fun _ => some "http://pdf.example/f.pdf"⟩

/-- A scrape environment whose fetches succeed and whose pages carry a pdf
anchor whose href is the empty string. -/
def envEmptyHref : ScrapeEnv :=
  ⟨fun _ => .success ⟨true, "PAGE"⟩, fun _ => some ""⟩

/-- A concrete row with only a calculated URL. -/
def rowCalc : Row := [("calc_url", "http://calc.example/a")]

/-- A concrete well-formed row: mandatory fields, an unrecognized field, a
present-but-empty `language` and `peer_reviewed`, and an issue. -/
def rowMeta : Row :=
  [ ("disciplines", "A"), ("context_key", "42"), ("custom_field", "v")
  , ("language", ""), ("peer_reviewed", ""), ("issue", "3") ]

/-- A concrete row whose `disciplines` field is the empty string. -/
def rowDiscEmpty : Row := [("disciplines", ""), ("context_key", "42")]

/-- A render configuration for concrete evaluations: base directory
`base`, and a renderer that produces `XML` for every article. -/
def cfgW : RenderCfg := ⟨"base", fun _ _ => "XML"⟩

theorem parse_authorsFrom_eq_takeWhile (row : Row) (l : List Nat) :
    parse_authorsFrom row l =
      (l.takeWhile (fun i => !decide (parse_author_at row i = []))).map
        (parse_author_at row) := by
  induction l with
  | nil => rfl
  | cons i rest ih =>
    by_cases h : parse_author_at row i = []
    · simp [parse_authorsFrom, List.takeWhile_cons, h]
    · simp [parse_authorsFrom, List.takeWhile_cons, h, ih]

theorem splitOnAux_ne_nil (s sep : String) (b i j : String.Pos) (r : List String) :
    String.splitOnAux s sep b i j r ≠ [] := by
  induction b, i, j, r using String.splitOnAux.induct s sep with
  | case1 b i j r h =>
    rw [String.splitOnAux]
    simp [h]
  | case2 b i j r h1 h2 i2 j2 h3 ih =>
    rw [String.splitOnAux]
    simp only [String.atEnd] at h1 h3 ⊢
    simp [h1, h2, h3]
    simpa using ih
  | case3 b i j r h1 h2 i2 j2 h3 ih =>
    rw [String.splitOnAux]
    simp only [String.atEnd] at h1 h3 ⊢
    simp [h1, h2, h3]
    simpa using ih
  | case4 b i j r h1 h2 ih =>
    rw [String.splitOnAux]
    simp only [String.atEnd] at h1 ⊢
    simp [h1, h2]
    simpa using ih

theorem splitOn_ne_nil (s sep : String) : s.splitOn sep ≠ [] := by
  rw [String.splitOn]
  split
  · simp
  · exact splitOnAux_ne_nil s sep 0 0 0 []

theorem splitOn_semi_empty : ("" : String).splitOn ";" = [""] := by
  rw [String.splitOn]
  rw [if_neg (by decide)]
  rw [String.splitOnAux]
  rw [if_pos (by decide)]
  simp [String.extract]

/-- C1: author extraction probes indices 1..5 in ascending order, keeps
exactly the non-blank candidate records before the first fully-blank
index (so the scan stops there even when later indices hold data), yields
at most 5 records, none of them blank, and every attribute of a candidate
comes from a present, non-empty source column of the row. -/
theorem c1_parse_authors_scan (row : Row) :
    parse_authors row =
      ((List.range' 1 5).takeWhile
        (fun i => !decide (parse_author_at row i = []))).map (parse_author_at row)
    ∧ (parse_authors row).length ≤ 5
    ∧ (∀ a ∈ parse_authors row, a ≠ [])
    ∧ (∀ i dest v, (dest, v) ∈ parse_author_at row i →
        ∃ src, (src, dest) ∈ AUTHOR_FIELDS_MAP ∧
          getTruthy row (fmtIndex src i) = some v) := by
  have key := parse_authorsFrom_eq_takeWhile row (List.range' 1 5)
  refine ⟨key, ?_, ?_, ?_⟩
  · rw [parse_authors, key, List.length_map]
    calc ((List.range' 1 5).takeWhile _).length
        ≤ (List.range' 1 5).length := (List.takeWhile_sublist _).length_le
      _ = 5 := by simp
  · intro a ha
    rw [parse_authors, key] at ha
    obtain ⟨i, hi, rfl⟩ := List.mem_map.1 ha
    have hp := List.mem_takeWhile_imp hi
    simpa using hp
  · intro i dest v hmem
    rw [parse_author_at, List.mem_filterMap] at hmem
    obtain ⟨⟨src, dest'⟩, hsd, hmap⟩ := hmem
    rw [Option.map_eq_some'] at hmap
    obtain ⟨w, hw, hpair⟩ := hmap
    obtain ⟨rfl, rfl⟩ := Prod.mk.injEq .. ▸ hpair
    exact ⟨src, hsd, hw⟩

/-- Witness for C1 at a concrete row: index 2 is blank, so the author in
index 3 is dropped and only the first author is kept. -/
theorem c1_witness :
    (parse_authors [("author1_fname", "Ada"), ("author3_fname", "Eve")]).length ≤ 5
    ∧ ∀ a ∈ parse_authors [("author1_fname", "Ada"), ("author3_fname", "Eve")],
        a ≠ [] :=
  ⟨(c1_parse_authors_scan [("author1_fname", "Ada"), ("author3_fname", "Eve")]).2.1,
   (c1_parse_authors_scan [("author1_fname", "Ada"), ("author3_fname", "Eve")]).2.2.1⟩

theorem truthy_none : truthy none = false := rfl

theorem truthy_some (s : String) : truthy (some s) = (s != "") := rfl

theorem get_fulltext_explicit (env : ScrapeEnv) (row : Row) (u : String)
    (hu : rowGet row "fulltext_url" = some u) (hne : u ≠ "") :
    get_fulltext_urlT env row true true = (some (stampUrl u), []) := by
  rw [get_fulltext_urlT]
  simp [hu, truthy_some, hne]

/-- C2: a row with a present, non-empty explicit `fulltext_url` resolves
to that URL with the stamping suffix appended, and the network trace is
empty: no fetch is performed, for any scrape environment. -/
theorem c2_explicit_url_no_fetch (env : ScrapeEnv) (row : Row) (u : String)
    (hu : rowGet row "fulltext_url" = some u) (hne : u ≠ "") :
    get_fulltext_urlT env row true true = (some (stampUrl u), []) :=
  get_fulltext_explicit env row u hu hne

/-- Witness for C2 at a concrete row, in the all-fetches-fail environment:
the explicit URL is returned stamped and nothing was fetched. -/
theorem c2_witness :
    get_fulltext_urlT envTriv [("fulltext_url", "http://x/y")] true true =
      (some "http://x/y?unstamped=1", []) := by
  have h := c2_explicit_url_no_fetch envTriv [("fulltext_url", "http://x/y")]
    "http://x/y" (by decide) (by decide)
  rw [h]
  decide

/-- C3 (amended): a row without an explicit URL whose calculated URL
fetch succeeds with an OK response carrying a pdf anchor with a
*non-empty* href `x` resolves to `x` with the stamping suffix. -/
theorem c3_scrape_pdf_anchor (env : ScrapeEnv) (row : Row) (c : String)
    (resp : FetchResponse) (x : String)
    (hfu : truthy (rowGet row "fulltext_url") = false)
    (hc : rowGet row "calc_url" = some c) (hcne : c ≠ "")
    (hfetch : env.fetch c = .success resp) (hok : resp.ok = true)
    (hanchor : env.findAnchorPdf resp.text = some x) (hx : x ≠ "") :
    get_fulltext_urlT env row true true = (some (stampUrl x), [c]) := by
  rw [get_fulltext_urlT]
  simp [hfu, hc, truthy_some, hcne, hfetch, hok, hanchor, hx]

/-- Counterexample to C3 as stated: when the pdf anchor's href is the
empty string, the empty string is falsy, so no stamping suffix is
appended — the resolver returns `some ""`, not the href plus the
suffix. -/
theorem c3_counterexample :
    rowGet rowCalc "fulltext_url" = none
    ∧ rowGet rowCalc "calc_url" = some "http://calc.example/a"
    ∧ envEmptyHref.fetch "http://calc.example/a" = .success ⟨true, "PAGE"⟩
    ∧ envEmptyHref.findAnchorPdf "PAGE" = some ""
    ∧ get_fulltext_url envEmptyHref rowCalc true true ≠ some (stampUrl "") := by
  decide

/-- Witness for C3 at a concrete row and environment with a non-empty
anchor href. -/
theorem c3_witness :
    get_fulltext_urlT envPdf rowCalc true true =
      (some "http://pdf.example/f.pdf?unstamped=1", ["http://calc.example/a"]) := by
  have h := c3_scrape_pdf_anchor envPdf rowCalc "http://calc.example/a"
    ⟨true, "PAGE"⟩ "http://pdf.example/f.pdf" (by decide) (by decide) (by decide)
    (by decide) (by decide) (by decide) (by decide)
  rw [h]
  decide

/-- C4: the stamping rule — with the unstamped flag set, a resolved URL
gains `&unstamped=1` when it already contains `?` and `?unstamped=1`
otherwise (with the two example URLs from the design), and no suffix is
appended when no URL was resolved. -/
theorem c4_stamp_rule :
    (∀ (env : ScrapeEnv) (row : Row) (u : String),
      rowGet row "fulltext_url" = some u → u ≠ "" →
      get_fulltext_urlT env row true true =
        (some (if u.data.contains '?' then u ++ "&unstamped=1"
               else u ++ "?unstamped=1"), []))
    ∧ stampUrl "http://x/y?foo=1" = "http://x/y?foo=1&unstamped=1"
    ∧ stampUrl "http://x/y" = "http://x/y?unstamped=1"
    ∧ (∀ (env : ScrapeEnv) (row : Row),
        truthy (rowGet row "fulltext_url") = false →
        truthy (rowGet row "calc_url") = false →
        get_fulltext_urlT env row true true = (rowGet row "fulltext_url", [])) := by
  refine ⟨?_, by decide, by decide, ?_⟩
  · intro env row u hu hne
    rw [get_fulltext_explicit env row u hu hne, stampUrl]
  · intro env row hfu hc
    rw [get_fulltext_urlT]
    simp [hfu, hc]

/-- Witness for C4: both separators at concrete URLs, and a row with
nothing to resolve gains no suffix. -/
theorem c4_witness :
    get_fulltext_urlT envTriv [("fulltext_url", "http://x/y?foo=1")] true true =
      (some "http://x/y?foo=1&unstamped=1", [])
    ∧ get_fulltext_urlT envTriv [] true true = (none, []) := by
  constructor
  · have h := c4_stamp_rule.1 envTriv [("fulltext_url", "http://x/y?foo=1")]
      "http://x/y?foo=1" (by decide) (by decide)
    rw [h]
    decide
  · have h := c4_stamp_rule.2.2.2 envTriv [] (by decide) (by decide)
    rw [h]
    decide

/-- C5: resolution failure is soft — a transport error, a non-OK
response, or an OK page without a pdf anchor each leave the URL exactly
as the (falsy) explicit field, the result value is absent/empty, and the
total embedding returns normally in every case (no exception channel is
needed: the `RequestException` handler is the only consumer of a raised
error). -/
theorem c5_resolution_soft_fail (env : ScrapeEnv) (row : Row) (c : String)
    (hfu : truthy (rowGet row "fulltext_url") = false)
    (hc : rowGet row "calc_url" = some c) (hcne : c ≠ "") :
    (env.fetch c = .transportError →
      get_fulltext_urlT env row true true = (rowGet row "fulltext_url", [c])
      ∧ truthy (get_fulltext_url env row true true) = false)
    ∧ (∀ resp, env.fetch c = .success resp → resp.ok = false →
      get_fulltext_urlT env row true true = (rowGet row "fulltext_url", [c])
      ∧ truthy (get_fulltext_url env row true true) = false)
    ∧ (∀ resp, env.fetch c = .success resp → resp.ok = true →
      env.findAnchorPdf resp.text = none →
      get_fulltext_urlT env row true true = (rowGet row "fulltext_url", [c])
      ∧ truthy (get_fulltext_url env row true true) = false) := by
  refine ⟨?_, ?_, ?_⟩
  · intro hfetch
    have heq : get_fulltext_urlT env row true true = (rowGet row "fulltext_url", [c]) := by
      rw [get_fulltext_urlT]
      simp [hfu, hc, truthy_some, hcne, hfetch]
    refine ⟨heq, ?_⟩
    simp only [get_fulltext_url, heq]
    exact hfu
  · intro resp hfetch hok
    have heq : get_fulltext_urlT env row true true = (rowGet row "fulltext_url", [c]) := by
      rw [get_fulltext_urlT]
      simp [hfu, hc, truthy_some, hcne, hfetch, hok]
    refine ⟨heq, ?_⟩
    simp only [get_fulltext_url, heq]
    exact hfu
  · intro resp hfetch hok hanchor
    have heq : get_fulltext_urlT env row true true = (rowGet row "fulltext_url", [c]) := by
      rw [get_fulltext_urlT]
      simp [hfu, hc, truthy_some, hcne, hfetch, hok, hanchor]
    refine ⟨heq, ?_⟩
    simp only [get_fulltext_url, heq]
    exact hfu

/-- Witness for C5 at a concrete row, in the environment where every
fetch raises a transport error: the URL stays unresolved and the batch
sees no exception. -/
theorem c5_witness :
    get_fulltext_urlT envTriv rowCalc true true = (none, ["http://calc.example/a"]) := by
  have h := (c5_resolution_soft_fail envTriv rowCalc "http://calc.example/a"
    (by decide) (by decide) (by decide)).1 (by decide)
  rw [h.1]
  decide

theorem parse_row_lookup (env : ScrapeEnv) (row : Row) (parsed : ParsedDict)
    (h : parse_row env row = some parsed) :
    ∃ d ck, rowGet row "disciplines" = some d ∧ rowGet row "context_key" = some ck ∧
      ∀ k, parsed k =
        if k = "authors" then some (.authors (parse_authors row))
        else if k = "keywords" then some (.strList (d.splitOn ";"))
        else if k = "fulltext_url" then
          some (.optStr (get_fulltext_url env row true true))
        else if k = "article_id" then some (.str ck)
        else if k = "language" then some (.str ((rowGet row "language").getD "en"))
        else if k = "peer_reviewed" then
          some (match rowGet row "peer_reviewed" with
                | some s => .str s
                | none => .bool false)
        else (rowGet row k).map .str := by
  rw [parse_row, parse_article_metadata] at h
  cases hd : rowGet row "disciplines" with
  | none =>
    rw [hd] at h
    simp at h
  | some d =>
    cases hc : rowGet row "context_key" with
    | none =>
      rw [hd, hc] at h
      simp at h
    | some ck =>
      rw [hd, hc] at h
      simp only [Option.map_some', Option.some.injEq] at h
      refine ⟨d, ck, rfl, rfl, ?_⟩
      intro k
      rw [← h]

/-- C6 (amended): the row-to-record mapping fails with a lookup error
exactly when the row lacks the `disciplines` field or lacks the
`context_key` field; a present `article_id` does not prevent the failure,
because the mapping reads `row["context_key"]` unconditionally. -/
theorem c6_mapping_keyerror (env : ScrapeEnv) (row : Row) :
    (parse_article_metadata env row = none ↔
      rowGet row "disciplines" = none ∨ rowGet row "context_key" = none)
    ∧ (parse_row env row = none ↔
      rowGet row "disciplines" = none ∨ rowGet row "context_key" = none) := by
  have h1 : parse_article_metadata env row = none ↔
      rowGet row "disciplines" = none ∨ rowGet row "context_key" = none := by
    rw [parse_article_metadata]
    cases hd : rowGet row "disciplines" <;> cases hc : rowGet row "context_key" <;> simp
  refine ⟨h1, ?_⟩
  rw [parse_row, Option.map_eq_none']
  exact h1

/-- Counterexample to C6 as stated: a row carrying `disciplines` and an
explicit `article_id` (one of the two identity fields) but no
`context_key` still fails, although the claim says it is mapped without
raising. -/
theorem c6_counterexample :
    rowGet [("disciplines", "A"), ("article_id", "7")] "disciplines" = some "A"
    ∧ rowGet [("disciplines", "A"), ("article_id", "7")] "article_id" = some "7"
    ∧ parse_article_metadata envTriv [("disciplines", "A"), ("article_id", "7")] = none := by
  refine ⟨by decide, by decide, ?_⟩
  rfl

/-- Witness for C6 at a concrete row lacking `disciplines`. -/
theorem c6_witness :
    parse_article_metadata envTriv [("context_key", "42")] = none :=
  (c6_mapping_keyerror envTriv [("context_key", "42")]).1.mpr (Or.inl (by decide))

/-- C7 (amended): every original row field whose name is not one of the
derived keys (`keywords`, `fulltext_url`, `article_id`, `language`,
`peer_reviewed`, `authors`) is carried into the record unmodified and
none is dropped; row fields named like a derived key are shadowed by the
derived value. -/
theorem c7_passthrough (env : ScrapeEnv) (row : Row) (parsed : ParsedDict)
    (h : parse_row env row = some parsed) (k : String)
    (hk : k ∉ ["keywords", "fulltext_url", "article_id", "language",
               "peer_reviewed", "authors"]) :
    parsed k = (rowGet row k).map Value.str := by
  obtain ⟨d, ck, hd, hc, hlk⟩ := parse_row_lookup env row parsed h
  simp only [List.mem_cons, List.not_mem_nil, or_false, not_or] at hk
  obtain ⟨h1, h2, h3, h4, h5, h6⟩ := hk
  rw [hlk k]
  simp [h1, h2, h3, h4, h5, h6]

/-- Counterexample to C7 as stated: a row with an original `article_id`
field `X` is mapped to a record whose `article_id` is the `context_key`
`Y` — the original value is not carried through unmodified. -/
theorem c7_counterexample :
    rowGet [("disciplines", "A"), ("context_key", "Y"), ("article_id", "X")]
      "article_id" = some "X"
    ∧ (parse_row envTriv
        [("disciplines", "A"), ("context_key", "Y"), ("article_id", "X")]).map
        (fun d => d "article_id") = some (some (Value.str "Y"))
    ∧ Value.str "Y" ≠ Value.str "X" := by
  refine ⟨by decide, ?_, by decide⟩
  rfl

/-- Witness for C7 at a concrete row with an unrecognized field
`custom_field`, carried through verbatim. -/
theorem c7_witness :
    (parse_row envTriv rowMeta).map (fun d => d "custom_field") =
      some (some (Value.str "v")) := by
  have hs : (parse_row envTriv rowMeta).isSome = true := by decide
  have h : parse_row envTriv rowMeta = some ((parse_row envTriv rowMeta).get hs) :=
    (Option.some_get hs).symm
  rw [h, Option.map_some',
    c7_passthrough envTriv rowMeta ((parse_row envTriv rowMeta).get hs) h
      "custom_field" (by decide)]
  decide

/-- C9: for a row whose `disciplines` field is present, `keywords` is its
semicolon-split, which is never the empty sequence; on the empty string
it is the one-element sequence holding the empty string. -/
theorem c9_keywords (env : ScrapeEnv) (row : Row) (parsed : ParsedDict) (s : String)
    (h : parse_row env row = some parsed)
    (hd : rowGet row "disciplines" = some s) :
    parsed "keywords" = some (Value.strList (s.splitOn ";"))
    ∧ s.splitOn ";" ≠ []
    ∧ ("" : String).splitOn ";" = [""] := by
  obtain ⟨d, ck, hd', hc, hlk⟩ := parse_row_lookup env row parsed h
  rw [hd] at hd'
  obtain rfl : s = d := Option.some.inj hd'
  refine ⟨?_, splitOn_ne_nil s ";", splitOn_semi_empty⟩
  rw [hlk "keywords"]
  simp

/-- Witness for C9 at a concrete row whose `disciplines` is the empty
string: `keywords` is the one-element sequence of the empty string. -/
theorem c9_witness :
    (parse_row envTriv rowDiscEmpty).map (fun d => d "keywords") =
      some (some (Value.strList [""])) := by
  have hs : (parse_row envTriv rowDiscEmpty).isSome = true := by decide
  have h : parse_row envTriv rowDiscEmpty =
      some ((parse_row envTriv rowDiscEmpty).get hs) :=
    (Option.some_get hs).symm
  have hk := c9_keywords envTriv rowDiscEmpty
    ((parse_row envTriv rowDiscEmpty).get hs) "" h (by decide)
  rw [h, Option.map_some', hk.1, hk.2.2]

/-- C10: the `language` and `peer_reviewed` defaults apply only when the
key is absent from the row; a present key is carried through as its row
value, even when that value is the empty string. -/
theorem c10_defaults_only_when_absent (env : ScrapeEnv) (row : Row)
    (parsed : ParsedDict) (h : parse_row env row = some parsed) :
    (∀ s, rowGet row "language" = some s → parsed "language" = some (Value.str s))
    ∧ (rowGet row "language" = none → parsed "language" = some (Value.str "en"))
    ∧ (∀ s, rowGet row "peer_reviewed" = some s →
        parsed "peer_reviewed" = some (Value.str s))
    ∧ (rowGet row "peer_reviewed" = none →
        parsed "peer_reviewed" = some (Value.bool false)) := by
  obtain ⟨d, ck, hd, hc, hlk⟩ := parse_row_lookup env row parsed h
  refine ⟨?_, ?_, ?_, ?_⟩
  · intro s hs
    rw [hlk "language"]
    simp [hs]
  · intro hs
    rw [hlk "language"]
    simp [hs]
  · intro s hs
    rw [hlk "peer_reviewed"]
    simp [hs]
  · intro hs
    rw [hlk "peer_reviewed"]
    simp [hs]

/-- Witness for C10 at a concrete row carrying `language` and
`peer_reviewed` with empty-string values: both are carried through, not
defaulted. -/
theorem c10_witness :
    (parse_row envTriv rowMeta).map (fun d => d "language") =
      some (some (Value.str ""))
    ∧ (parse_row envTriv rowMeta).map (fun d => d "peer_reviewed") =
      some (some (Value.str "")) := by
  have hs : (parse_row envTriv rowMeta).isSome = true := by decide
  have h : parse_row envTriv rowMeta = some ((parse_row envTriv rowMeta).get hs) :=
    (Option.some_get hs).symm
  have hc := c10_defaults_only_when_absent envTriv rowMeta
    ((parse_row envTriv rowMeta).get hs) h
  constructor
  · rw [h, Option.map_some', hc.1 "" (by decide)]
  · rw [h, Option.map_some', hc.2.2.1 "" (by decide)]

theorem csv_nocommit_preserves_fs (cfg : RenderCfg) (env : ScrapeEnv) :
    ∀ (rows : List Row) (effs : List FsEffect),
      csv_to_xml cfg env rows false = some effs →
      ∀ fs : Fs, applyEffects fs effs = fs := by
  intro rows
  induction rows with
  | nil =>
    intro effs h fs
    simp only [csv_to_xml, Option.some.injEq] at h
    rw [← h]
    rfl
  | cons row rest ih =>
    intro effs h fs
    simp only [csv_to_xml] at h
    cases hp : parse_row env row with
    | none =>
      rw [hp] at h
      simp at h
    | some parsed =>
      rw [hp] at h
      simp only [Bool.false_eq_true, if_false] at h
      split at h
      · rw [Option.map_eq_some'] at h
        obtain ⟨effs', hrec, heq⟩ := h
        rw [← heq]
        show applyEffects (applyEffect fs (FsEffect.stdout (render_xml cfg parsed))) effs' = fs
        exact ih effs' hrec fs
      · exact absurd h (by simp)

/-- C8: for each processed row the batch converter uses the explicit,
non-empty `article_id` when present and otherwise the `context_key` as
the output identity, places the rendered text at
`BEPRESS_PATH/issue/identity/metadata.xml`, writes it there (overwriting
any existing content) when commit is true, and when commit is false
touches no file and emits the rendered text to standard output
instead. -/
theorem c8_batch_output (cfg : RenderCfg) (env : ScrapeEnv) (row : Row)
    (rest : List Row) (parsed : ParsedDict) (ident issue : String)
    (hp : parse_row env row = some parsed)
    (hid : (match getTruthy row "article_id" with
            | some a => some a
            | none => rowGet row "context_key") = some ident)
    (hissue : rowGet row "issue" = some issue) :
    (csv_to_xml cfg env (row :: rest) true =
      (csv_to_xml cfg env rest true).map
        (FsEffect.mkdirWrite [cfg.bepressPath, issue, ident, "metadata.xml"]
          (render_xml cfg parsed) :: ·))
    ∧ (csv_to_xml cfg env (row :: rest) false =
      (csv_to_xml cfg env rest false).map
        (FsEffect.stdout (render_xml cfg parsed) :: ·))
    ∧ (∀ fs : Fs,
        applyEffect fs
          (FsEffect.mkdirWrite [cfg.bepressPath, issue, ident, "metadata.xml"]
            (render_xml cfg parsed))
          [cfg.bepressPath, issue, ident, "metadata.xml"] =
        some (render_xml cfg parsed))
    ∧ (∀ (rows : List Row) (effs : List FsEffect) (fs : Fs),
        csv_to_xml cfg env rows false = some effs → applyEffects fs effs = fs) := by
  refine ⟨?_, ?_, ?_, ?_⟩
  · simp [csv_to_xml, hp, hid, hissue]
  · simp [csv_to_xml, hp, hid, hissue]
  · intro fs
    simp [applyEffect]
  · intro rows effs fs h
    exact csv_nocommit_preserves_fs cfg env rows effs h fs

/-- Witness for C8 at a concrete one-row batch without `article_id`: the
identity falls back to the context key, commit writes the rendered text
under `base/3/42/metadata.xml`, and no-commit prints it. -/
theorem c8_witness :
    csv_to_xml cfgW envTriv [rowMeta] true =
      some [FsEffect.mkdirWrite ["base", "3", "42", "metadata.xml"] "XML"]
    ∧ csv_to_xml cfgW envTriv [rowMeta] false = some [FsEffect.stdout "XML"] := by
  have hs : (parse_row envTriv rowMeta).isSome = true := by decide
  have h : parse_row envTriv rowMeta = some ((parse_row envTriv rowMeta).get hs) :=
    (Option.some_get hs).symm
  have hc := c8_batch_output cfgW envTriv rowMeta []
    ((parse_row envTriv rowMeta).get hs) "42" "3" h (by decide) (by decide)
  constructor
  · rw [hc.1]
    rfl
  · rw [hc.2.1]
    rfl
